/-
Verification of the autoproxy PAC engine (common/filters/autoproxy/autoproxy_pac.go).

Go strings are modelled as `List Char` (the inputs of interest are ASCII).
Each Go standard-library string helper used by the source is embedded as a
small total Lean function with the same semantics on the inputs the source
feeds it; the repository functions (parseAutoProxy, legallyParseGFWList,
GFWListDomainsMatch, fixProxyPac, ProxyPacRoundTrip, pacUpdater) are then
translated statement by statement.  Effectful calls (the object store, the
PAC cache, the HTTP transport, the clock) are supplied by explicit
environment records, and the functions return the response produced, the
cache write performed and, for the updater, the sequence of state-changing
events in execution order.
-/
import Mathlib

/-- Characters of a string literal, the Go string value. -/
def strL (s : String) : List Char := s.data

/-- Embedding of Go strings.HasPrefix: `hasPfxL s p` is true when `p` is a
prefix of `s`. -/
def hasPfxL : List Char → List Char → Bool
  | _, [] => true
  | [], _ :: _ => false
  | c :: s, p :: ps => c == p && hasPfxL s ps

/-- Embedding of Go strings.HasSuffix: `hasSfxL s p` is true when `p` is a
suffix of `s`. -/
def hasSfxL (s p : List Char) : Bool := hasPfxL s.reverse p.reverse

/-- Embedding of Go strings.Contains for a substring pattern. -/
def containsSeqL : List Char → List Char → Bool
  | [], pat => pat == []
  | c :: rest, pat => hasPfxL (c :: rest) pat || containsSeqL rest pat

/-- Worker for `splitSepGo`, structurally recursive on a fuel argument that
is kept at least the length of the remaining input. -/
def splitSepFuel (sep : List Char) : Nat → List Char → List (List Char)
  | 0, s => [s]
  | fuel + 1, s =>
    match s with
    | [] => [[]]
    | c :: rest =>
      if sep ≠ [] && hasPfxL s sep then
        [] :: splitSepFuel sep fuel (s.drop sep.length)
      else
        match splitSepFuel sep fuel rest with
        | [] => [[c]]
        | chunk :: more => (c :: chunk) :: more

/-- Embedding of Go strings.Split (the source only calls it with a
non-empty separator). -/
def splitSepGo (s sep : List Char) : List (List Char) := splitSepFuel sep s.length s

/-- Embedding of Go strings.SplitN(s, ".", 2). -/
def splitN2Dot (s : List Char) : List (List Char) :=
  if s.contains '.' then
    [s.takeWhile (fun c => !(c == '.')), (s.dropWhile (fun c => !(c == '.'))).drop 1]
  else [s]

/-- First element of a list of strings, empty string when absent (Go
indexing `parts[0]` on a Split result, which is never empty). -/
def headD2 : List (List Char) → List Char
  | [] => []
  | x :: _ => x

/-- Last element of a list of strings, empty string when absent (Go
indexing `parts[len(parts)-1]`). -/
def lastD2 : List (List Char) → List Char
  | [] => []
  | [x] => x
  | _ :: y :: ys => lastD2 (y :: ys)

/-- ASCII model of the white space recognised by Go strings.TrimSpace. -/
def isGoSpace (c : Char) : Bool :=
  c == ' ' || c == '\t' || c == '\n' || c == '\x0b' || c == '\x0c' || c == '\r'

/-- Embedding of Go strings.TrimSpace on ASCII input. -/
def trimSpaceL (s : List Char) : List Char :=
  ((s.dropWhile isGoSpace).reverse.dropWhile isGoSpace).reverse

/-- The character class of the parser regular expression
`^[a-zA-Z0-9\.\_\-]+$`. -/
def isHostChar (c : Char) : Bool :=
  (97 ≤ c.toNat && c.toNat ≤ 122) || (65 ≤ c.toNat && c.toNat ≤ 90) ||
  (48 ≤ c.toNat && c.toNat ≤ 57) || c == '.' || c == '_' || c == '-'

/-- Embedding of Go strings.Replace(s, old, new, 1): replace the first
occurrence of `old` (the source only calls it with a non-empty `old`). -/
def replaceFirstSeq : List Char → List Char → List Char → List Char
  | [], _, _ => []
  | c :: rest, old, new =>
    if hasPfxL (c :: rest) old then new ++ (c :: rest).drop old.length
    else c :: replaceFirstSeq rest old new

/-- Model of url.Parse(u).Host for a `u` that starts with `http://`: the
authority part, up to the first of `/`, `?` or `#`.  (The source reaches
this only on `|http://` rules; no claim depends on finer URL parsing.) -/
def urlHostModel (u : List Char) : List Char :=
  (u.drop 7).takeWhile (fun c => !(c == '/') && !(c == '?') && !(c == '#'))

/-- One iteration of the parseAutoProxy scanner loop: the rule added for a
single input line, or none.  Translated case by case from the Go switch. -/
def parseAutoProxyLine (line : List Char) : Option (List Char) :=
  let s := trimSpaceL line
  if s == [] || hasPfxL s (strL ("[")) || hasPfxL s (strL ("!")) ||
     hasPfxL s (strL ("||!")) || hasPfxL s (strL ("@@")) then
    none
  else if hasPfxL s (strL ("||")) then
    let site := headD2 (splitSepGo (s.drop 2) (strL ("/")))
    let site :=
      if containsSeqL site (strL ("*.")) then lastD2 (splitSepGo site (strL ("*.")))
      else if hasPfxL site (strL ("*")) then lastD2 (splitN2Dot site)
      else site
    some site
  else if hasPfxL s (strL ("|http://")) then
    let site := urlHostModel (s.drop 1)
    let site :=
      if containsSeqL site (strL ("*.")) then lastD2 (splitSepGo site (strL ("*.")))
      else if hasPfxL site (strL ("*")) then lastD2 (splitN2Dot site)
      else site
    some site
  else if hasPfxL s (strL (".")) then
    let site := headD2 (splitSepGo (headD2 (splitSepGo (s.drop 1) (strL ("/")))) (strL ("*")))
    let site := if hasSfxL site (strL (".co")) then site ++ ['m'] else site
    some site
  else if !(s.contains '*') then
    let site := headD2 (splitSepGo s (strL ("/")))
    if site ≠ [] && site.all isHostChar then some site else none
  else none

/-- parseAutoProxy over the scanned lines of the input.  The Go function
accumulates the sites in a map (a set); the model keeps the set as a
duplicate-free list in insertion order (Go map iteration order is
unspecified; every claim below uses at most one element). -/
def parseAutoProxy (lines : List (List Char)) : List (List Char) :=
  (lines.filterMap parseAutoProxyLine).foldl
    (fun acc s => if acc.contains s then acc else acc ++ [s]) []

/-- Byte-wise lexicographic order used by Go sort.Strings. -/
def lexLeChar : List Char → List Char → Bool
  | [], _ => true
  | _ :: _, [] => false
  | a :: s, b :: t => if a == b then lexLeChar s t else decide (a.toNat < b.toNat)

/-- Insertion into a sorted list of strings. -/
def insertStr (x : List Char) : List (List Char) → List (List Char)
  | [] => [x]
  | y :: ys => if lexLeChar x y then x :: y :: ys else y :: insertStr x ys

/-- Insertion sort implementing Go sort.Strings. -/
def sortStrs (l : List (List Char)) : List (List Char) := l.foldr insertStr []

/-- The lines produced by bufio.Scanner with ScanLines over the stored
bytes: split at newlines, dropping one trailing carriage return per line.
(ScanLines does not emit a final empty token after a trailing newline; the
model may, and the parser skips blank lines, so the resulting set is the
same.) -/
def toLines (bs : List Char) : List (List Char) :=
  (splitSepGo bs (strL ("\n"))).map (fun l => if hasSfxL l (strL ("\r")) then l.dropLast else l)

/-- legallyParseGFWList: read the stored list (the environment supplies the
Store.Get result, `none` for a read error), parse it and sort the sites.
parseAutoProxy itself can only fail on a byte-stream read error, which is
part of the same `none` case here. -/
def legallyParseGFWList (stored : Option (List Char)) : Option (List (List Char)) :=
  match stored with
  | none => none
  | some bs => some (sortStrs (parseAutoProxy (toLines bs)))

/-- GFWListDomainsMatch from the source: false for the empty domain, else a
linear scan for an exact match or a dot-boundary suffix match. -/
def GFWListDomainsMatch (d : List Char) (domains : List (List Char)) : Bool :=
  if d = [] then false
  else domains.any (fun dom => d == dom || hasSfxL d ('.' :: dom))

/-- One generated entry line of the `sites` object literal, as written by
the ProxyPacRoundTrip loop body. -/
def sitesEntryLine (site : List Char) : List Char :=
  strL ("\"") ++ site ++ strL ("\":1,\n")

/-- All entry lines of the `sites` object literal: one per published
domain, in order, followed by the hard-coded final google.com entry the
source writes after the loop. -/
def sitesEntryLines (domains : List (List Char)) : List (List Char) :=
  domains.map sitesEntryLine ++ [strL ("\"google.com\":1\n")]

/-- The full `var sites = ...` block appended by ProxyPacRoundTrip. -/
def renderSitesBlock (domains : List (List Char)) : List Char :=
  strL ("\nvar sites = \x7b\n") ++ (sitesEntryLines domains).flatten ++ strL ("\x7d\n")

/-- The key of a generated entry line: the text between its first pair of
double quotes. -/
def sitesEntryKey (line : List Char) : List Char :=
  (line.drop 1).takeWhile (fun c => !(c == '"'))

/-- The wrapper script appended after the sites block (the raw Go string
literal of the source, with localhost2 interpolated). -/
def pacWrapperScript : List Char :=
  strL ("\nfor (i in whiteList) \x7b\n\tdelete sites[whiteList[i]];\n\x7d\nfunction FindProxyForURL(url, host) \x7b\n    if ((p = MyFindProxyForURL(url, host)) != \"DIRECT\") \x7b\n        return p\n    \x7d\n\n    var lastPos;\n    do \x7b\n        if (sites.hasOwnProperty(host)) \x7b\n            return \x27PROXY 127.0.1.2:8087\x27;\n        \x7d\n        lastPos = host.indexOf(\x27.\x27) + 1;\n        host = host.slice(lastPos);\n    \x7d while (lastPos >= 1);\n    return \x27DIRECT\x27;\n\x7d")

/-- The default user template generated on a missing store object (the
fmt.Sprintf literal of the source, with localhost2 and the port
interpolated). -/
def defaultPacTemplate (port : List Char) : List Char :=
  strL ("// User-defined FindProxyForURL\nvar whiteList = new Array(\n\t// \"ruanyifeng.com\",\n);\nfunction FindProxyForURL(url, host) \x7b\n    if (isPlainHostName(host) ||\n        isInNet(host, \"10.0.0.0\", \"255.0.0.0\") ||\n        isInNet(host, \"172.16.0.0\", \"255.240.0.0\") ||\n        isInNet(host, \"169.254.0.0\", \"255.255.0.0\") ||\n        isInNet(host, \"192.168.0.0\", \"255.255.0.0\") ||\n        isInNet(host, \"127.0.0.0\", \"255.255.255.0\") ||\n        shExpMatch(host, \"*.local\") ||\n        shExpMatch(host, \x27localhost.*\x27)) \x7b\n        return \x27DIRECT\x27;\n    \x7d\n\n    if (shExpMatch(host, \x27*.google*.*\x27)) \x7b\n        return \x27PROXY 127.0.1.2:") ++ port ++ strL ("\x27;\n    \x7d\n\n    return \x27DIRECT\x27;\n\x7d\n")

/-- The regular expression prefix `PROXY 127.0.1.2:` of fixProxyPac, one
cell per pattern character; `none` marks an unescaped `.`, which in the
source regular expression matches any character. -/
def patChars : List (Option Char) :=
  [some 'P', some 'R', some 'O', some 'X', some 'Y', some ' ',
   some '1', some '2', some '7', none, some '0', none, some '1', none,
   some '2', some ':']

/-- Match a literal-or-wildcard pattern against the head of a string,
returning the remainder on success. -/
def matchOptPat : List (Option Char) → List Char → Option (List Char)
  | [], s => some s
  | _ :: _, [] => none
  | oc :: pr, c :: s =>
    match oc with
    | some c2 => if c == c2 then matchOptPat pr s else none
    | none => matchOptPat pr s

/-- Match of the full fixProxyPac regular expression
`PROXY 127.0.1.2:\x5cd+` at the head of a string: the prefix pattern
followed by a maximal non-empty run of digits.  Returns the rest of the
string after the match. -/
def matchPlaceholderAt (s : List Char) : Option (List Char) :=
  match matchOptPat patChars s with
  | none => none
  | some rest =>
    match rest with
    | [] => none
    | c :: _ => if c.isDigit then some (rest.dropWhile Char.isDigit) else none

/-- Scanner of Regexp.ReplaceAllString for the fixProxyPac pattern:
left to right, replacing each leftmost match and resuming after it.  The
fuel argument is kept at least the length of the remaining input. -/
def fixScan (host : List Char) : Nat → List Char → List Char
  | _, [] => []
  | 0, s => s
  | fuel + 1, c :: rest =>
    match matchPlaceholderAt (c :: rest) with
    | some rest2 => (strL ("PROXY ") ++ host) ++ fixScan host fuel rest2
    | none => c :: fixScan host fuel rest

/-- fixProxyPac from the source: rewrite every occurrence of
`PROXY 127.0.1.2:<port>` to `PROXY <request host>`. -/
def fixProxyPac (s host : List Char) : List Char := fixScan host s.length s

/-- Errors returned by the object store, as the handler distinguishes
them: os.IsNotExist errors versus any other error. -/
inductive GoErr where
  | notExist : GoErr
  | other : GoErr
deriving DecidableEq

/-- A store response: its HTTP status code and its body (`none` models a
nil Body). -/
structure StoreResp where
  statusCode : Nat
  body : Option (List Char)
deriving DecidableEq

/-- The effectful results ProxyPacRoundTrip consumes, supplied as an
explicit environment: the PAC cache lookup for the request path (the
cache only ever holds strings, so a hit is a string), the two Store.Get
calls, whether reading the second body fails, the GFWList flag, the
published domain snapshot and the current time (seconds). -/
structure PacEnv where
  cacheVal : Option (List Char)
  get1Resp : Option StoreResp
  get1Err : Option GoErr
  get2Resp : Option StoreResp
  get2Err : Option GoErr
  get2ReadErr : Bool
  gfwEnabled : Bool
  domains : List (List Char)
  now : Int
deriving DecidableEq

/-- The request data the handler reads: req.Host and req.URL.Path. -/
structure PacReq where
  host : List Char
  path : List Char
deriving DecidableEq

/-- What the handler returns: a nil-pointer fault, an error return
`(ctx, nil, err)`, or a synthetic response (status code, Close flag,
ContentLength, body). -/
inductive PacOutcome where
  | panic : PacOutcome
  | errOut : GoErr → PacOutcome
  | respOut : Nat → Bool → Nat → List Char → PacOutcome
deriving DecidableEq

/-- A handler run: its outcome, the ProxyPacCache.Set performed (key,
value, expiry time) and the default template persisted with Store.Put, if
any. -/
structure PacResult where
  outcome : PacOutcome
  cacheSet : Option (List Char × List Char × Int)
  storePutDefault : Option (List Char × List Char)
deriving DecidableEq

/-- Model of the net.SplitHostPort use at the top of the handler: the text
after the last colon of req.Host, with the port defaulting to 80 when the
split fails because no colon is present. -/
def goPort (host : List Char) : List Char :=
  if host.contains ':' then (host.reverse.takeWhile (fun c => !(c == ':'))).reverse
  else strL ("80")

/-- The cache TTL of the handler, 15 minutes in seconds. -/
def pacCacheTTL : Int := 15 * 60

/-- The short-circuit condition
`os.IsNotExist(err) or resp.StatusCode == http.StatusNotFound` on the
first Store.Get; `none` is the nil-pointer dereference of `resp` that
happens when the error is not a not-exist error and the response is nil. -/
def proxyPacCond (env : PacEnv) : Option Bool :=
  match env.get1Err with
  | some GoErr.notExist => some true
  | _ =>
    match env.get1Resp with
    | none => none
    | some r => some (r.statusCode == 404)

/-- The nil dereferences around the second Store.Get: with a nil error the
code defers resp.Body.Close and reads resp.Body, so a nil response or a
nil body faults; with a non-nil error the block is skipped. -/
def pacSecondGetPanics (env : PacEnv) : Bool :=
  match env.get2Err, env.get2Resp with
  | none, none => true
  | none, some r => r.body.isNone
  | some _, _ => false

/-- The base text written into buf from the second Store.Get (empty when
that read errs or its body read fails), with the first
`function FindProxyForURL(` renamed when GFWList is enabled. -/
def missBase (env : PacEnv) : List Char :=
  match env.get2Err, env.get2Resp with
  | none, some r =>
    match r.body with
    | some bs =>
      if env.get2ReadErr then []
      else if env.gfwEnabled then
        replaceFirstSeq bs (strL ("function FindProxyForURL(")) (strL ("function MyFindProxyForURL("))
      else bs
    | none => []
  | _, _ => []

/-- buf.String() on the cache-miss path: the base text plus, when GFWList
is enabled, the sites block and the wrapper script. -/
def renderedPac (env : PacEnv) : List Char :=
  missBase env ++
  (if env.gfwEnabled then renderSitesBlock env.domains ++ pacWrapperScript else [])

/-- ProxyPacRoundTrip, statement by statement: cache hit returns the
rewritten cached text; on a miss the first Store.Get is inspected (with
the nil dereferences of the source), a missing object is regenerated from
the default template, a non-nil error is returned as an error, and
otherwise the freshly rendered text is cached un-rewritten for 15 minutes
and returned rewritten. -/
def ProxyPacRoundTrip (env : PacEnv) (req : PacReq) : PacResult :=
  match env.cacheVal with
  | some s =>
    { outcome := PacOutcome.respOut 200 true (fixProxyPac s req.host).length (fixProxyPac s req.host),
      cacheSet := none, storePutDefault := none }
  | none =>
    match proxyPacCond env with
    | none => { outcome := PacOutcome.panic, cacheSet := none, storePutDefault := none }
    | some cond =>
      let putd : Option (List Char × List Char) :=
        if cond then some (req.path.drop 1, defaultPacTemplate (goPort req.host)) else none
      if cond && env.get1Resp.isNone then
        { outcome := PacOutcome.panic, cacheSet := none, storePutDefault := putd }
      else
        match env.get1Err with
        | some e => { outcome := PacOutcome.errOut e, cacheSet := none, storePutDefault := putd }
        | none =>
          if pacSecondGetPanics env then
            { outcome := PacOutcome.panic, cacheSet := none, storePutDefault := putd }
          else
            { outcome := PacOutcome.respOut 200 true
                (fixProxyPac (renderedPac env) req.host).length
                (fixProxyPac (renderedPac env) req.host),
              cacheSet := some (req.path, renderedPac env, env.now + pacCacheTTL),
              storePutDefault := putd }

/-- State-changing events of one pacUpdater cycle, in execution order:
the Store.Head metadata check, the remote download round trip, the
Store.Delete and Store.Put of the raw bytes, taking and releasing the
domain-snapshot write lock, replacing the published domain list, clearing
the PAC cache, and the glog.Fatalf process termination. -/
inductive UEvent where
  | head : UEvent
  | download : UEvent
  | storeDelete : UEvent
  | storePut : List Char → UEvent
  | lockW : UEvent
  | setDomains : List (List Char) → UEvent
  | unlockW : UEvent
  | cacheClear : UEvent
  | fatal : UEvent
deriving DecidableEq

/-- Result of one pacUpdater cycle: skipped (a `continue`), terminated the
process (glog.Fatalf), or published a new list. -/
inductive UOutcome where
  | skip : UOutcome
  | fatal : UOutcome
  | updated : UOutcome
deriving DecidableEq

/-- The effectful results one pacUpdater cycle consumes: the Store.Head
outcome and its Last-Modified header, the time.Parse result for that
header (a library oracle), the clock and the configured staleness
threshold (seconds), the http.NewRequest and transport outcomes, the
downloaded bytes after content decoding, the body-read, Delete and Put
outcomes, and the Store.Get result of the re-read inside
legallyParseGFWList (`none` for a read error, the only way that parse can
fail). -/
structure UpdEnv where
  headErr : Bool
  lastModified : Option (List Char)
  lmParsed : Option Int
  now : Int
  expiry : Int
  newReqErr : Bool
  transportErr : Bool
  downloadBody : List Char
  readErr : Bool
  deleteErr : Bool
  putErr : Bool
  reparseBytes : Option (List Char)
deriving DecidableEq

/-- One iteration of the pacUpdater loop after its ticker fires,
statement by statement from the source: the staleness check with its four
`continue` exits, then download, read, Store.Delete, Store.Put, and the
lock-guarded snapshot replacement whose parse error branch calls
glog.Fatalf (terminating the process while the write lock is still held),
followed by ProxyPacCache.Clear. -/
def pacUpdaterCycle (env : UpdEnv) : UOutcome × List UEvent :=
  if env.headErr then (UOutcome.skip, [UEvent.head])
  else
    match env.lastModified with
    | none => (UOutcome.skip, [UEvent.head])
    | some _ =>
      match env.lmParsed with
      | none => (UOutcome.skip, [UEvent.head])
      | some t =>
        if env.now - t < env.expiry then (UOutcome.skip, [UEvent.head])
        else if env.newReqErr then (UOutcome.skip, [UEvent.head])
        else if env.transportErr then (UOutcome.skip, [UEvent.head, UEvent.download])
        else if env.readErr then (UOutcome.skip, [UEvent.head, UEvent.download])
        else if env.deleteErr then
          (UOutcome.skip, [UEvent.head, UEvent.download, UEvent.storeDelete])
        else if env.putErr then
          (UOutcome.skip, [UEvent.head, UEvent.download, UEvent.storeDelete,
            UEvent.storePut env.downloadBody])
        else
          match legallyParseGFWList env.reparseBytes with
          | none =>
            (UOutcome.fatal, [UEvent.head, UEvent.download, UEvent.storeDelete,
              UEvent.storePut env.downloadBody, UEvent.lockW, UEvent.fatal])
          | some ds =>
            (UOutcome.updated, [UEvent.head, UEvent.download, UEvent.storeDelete,
              UEvent.storePut env.downloadBody, UEvent.lockW, UEvent.setDomains ds,
              UEvent.unlockW, UEvent.cacheClear])

/-- hasPfxL decides the prefix relation. -/
theorem hasPfxL_iff (p : List Char) : ∀ s : List Char, hasPfxL s p = true ↔ ∃ t, s = p ++ t := by
  induction p with
  | nil => intro s; simp [hasPfxL]
  | cons c ps ih =>
    intro s
    cases s with
    | nil => simp [hasPfxL]
    | cons a s' =>
      simp [hasPfxL, Bool.and_eq_true, beq_iff_eq, ih, List.cons.injEq, exists_and_left]

/-- hasSfxL decides the suffix relation. -/
theorem hasSfxL_iff (s p : List Char) : hasSfxL s p = true ↔ ∃ t, s = t ++ p := by
  unfold hasSfxL
  rw [hasPfxL_iff]
  constructor
  · rintro ⟨t, h⟩
    refine ⟨t.reverse, ?_⟩
    have h2 := congrArg List.reverse h
    simpa using h2
  · rintro ⟨t, rfl⟩
    exact ⟨t.reverse, by simp⟩

/-- C1: for every domain d and rule set R, GFWListDomainsMatch returns true
iff d is non-empty and either equals some rule exactly or ends with a dot
followed by some rule; for the empty domain it always returns false. -/
theorem GFWListDomainsMatch_spec (d : List Char) (R : List (List Char)) :
    (GFWListDomainsMatch d R = true ↔
      d ≠ [] ∧ ∃ r ∈ R, d = r ∨ ∃ t, d = t ++ '.' :: r) ∧
    GFWListDomainsMatch [] R = false := by
  constructor
  · by_cases hd : d = []
    · subst hd; simp [GFWListDomainsMatch]
    · unfold GFWListDomainsMatch
      rw [if_neg hd, List.any_eq_true]
      simp only [Bool.or_eq_true, beq_iff_eq, hasSfxL_iff]
      simp [hd]
  · simp [GFWListDomainsMatch]

/-- C4 counterexample: the single input line `||*.foo.bar/path` yields the
rule `foo.bar` (the text after the last `*.` wildcard boundary), not the
rule `bar` the claim states. -/
theorem parseAutoProxy_wildcard_counterexample :
    parseAutoProxy [strL ("||*.foo.bar/path")] = [strL ("foo.bar")] ∧
    strL ("foo.bar") ≠ strL ("bar") := by
  constructor
  · decide
  · decide

/-- C4 amended: parsing the single input line `||*.foo.bar/path` yields the
rule `foo.bar`. -/
theorem parseAutoProxy_wildcard_amended :
    parseAutoProxy [strL ("||*.foo.bar/path")] = [strL ("foo.bar")] := by
  decide

/-- C5: the parser edge cases: `||*.example.com/x` yields `example.com`;
`.example.co/y` yields `example.com` (the `.co` completion); `example.net`
yields itself; an exception line `@@||allowed.com`, a blank line, and lines
whose host text holds characters outside `[A-Za-z0-9._-]` while matching no
other rule shape, add no rule. -/
theorem parseAutoProxy_edge_cases :
    parseAutoProxy [strL ("||*.example.com/x")] = [strL ("example.com")] ∧
    parseAutoProxy [strL (".example.co/y")] = [strL ("example.com")] ∧
    parseAutoProxy [strL ("example.net")] = [strL ("example.net")] ∧
    parseAutoProxy [strL ("@@||allowed.com")] = [] ∧
    parseAutoProxy [strL ("")] = [] ∧
    parseAutoProxy [strL ("inv@lid")] = [] ∧
    parseAutoProxy [strL ("bad^host.com")] = [] := by
  refine ⟨by decide, by decide, by decide, by decide, by decide, by decide, by decide⟩

/-- takeWhile runs through a block whose characters all satisfy the
predicate and stops at the first failing character. -/
theorem takeWhile_all_stop (p : Char → Bool) :
    ∀ (l : List Char) (x : Char) (m : List Char),
    (∀ c ∈ l, p c = true) → p x = false → (l ++ x :: m).takeWhile p = l := by
  intro l
  induction l with
  | nil => intro x m _ hx; simp [List.takeWhile_cons, hx]
  | cons a l' ih =>
    intro x m hall hx
    have ha : p a = true := hall a (by simp)
    simp [List.takeWhile_cons, ha, ih x m (fun c hc => hall c (by simp [hc])) hx]

/-- The key of a generated entry line is the site it was generated from,
for sites without a double quote (every parsed rule qualifies). -/
theorem sitesEntryKey_entry (site : List Char) (h : ∀ c ∈ site, c ≠ '"') :
    sitesEntryKey (sitesEntryLine site) = site := by
  have h1 : sitesEntryLine site = '"' :: (site ++ '"' :: strL (":1,\n")) := rfl
  rw [h1]
  show (site ++ '"' :: strL (":1,\n")).takeWhile (fun c => !(c == '"')) = site
  apply takeWhile_all_stop
  · intro c hc
    simpa using h c hc
  · simp

/-- C3 amended: the generated `sites` object literal holds exactly one
entry per domain of the published set, in order, followed by one
hard-coded entry whose key is google.com. -/
theorem renderSitesBlock_entries (domains : List (List Char))
    (h : ∀ s ∈ domains, ∀ c ∈ s, c ≠ '"') :
    (sitesEntryLines domains).map sitesEntryKey = domains ++ [strL ("google.com")] := by
  induction domains with
  | nil => decide
  | cons d ds ih =>
    have hd := sitesEntryKey_entry d (fun c hc => h d (List.mem_cons_self d ds) c hc)
    have hds := ih (fun s hs c hc => h s (List.mem_cons_of_mem d hs) c hc)
    show sitesEntryKey (sitesEntryLine d) :: (sitesEntryLines ds).map sitesEntryKey =
      d :: (ds ++ [strL ("google.com")])
    rw [hd, hds]

/-- Witness for the amended C3 statement at the one-domain set a.com. -/
theorem renderSitesBlock_entries_witness :
    (sitesEntryLines [strL ("a.com")]).map sitesEntryKey =
      [strL ("a.com")] ++ [strL ("google.com")] :=
  renderSitesBlock_entries [strL ("a.com")] (by decide)

/-- C3 counterexample: for the empty domain set the rendered literal still
holds an entry, keyed google.com, so the literal does not consist of
exactly the entries of the set. -/
theorem renderSitesBlock_google_counterexample :
    (sitesEntryLines []).map sitesEntryKey = [strL ("google.com")] ∧
    strL ("google.com") ∉ ([] : List (List Char)) ∧
    renderSitesBlock [] = strL ("\nvar sites = \x7b\n\"google.com\":1\n\x7d\n") := by
  refine ⟨by decide, by decide, by decide⟩

/-- A successful pattern-prefix match consumes exactly the pattern length. -/
theorem matchOptPat_length : ∀ (pr : List (Option Char)) (s r : List Char),
    matchOptPat pr s = some r → s.length = pr.length + r.length := by
  intro pr
  induction pr with
  | nil =>
    intro s r h
    simp [matchOptPat] at h
    subst h
    simp
  | cons oc pr ih =>
    intro s r h
    cases s with
    | nil => simp [matchOptPat] at h
    | cons c s' =>
      cases oc with
      | some c2 =>
        by_cases hc : c = c2
        · subst hc
          simp [matchOptPat] at h
          have h2 := ih s' r h
          simp [h2]
          omega
        · simp [matchOptPat, hc] at h
      | none =>
        simp [matchOptPat] at h
        have h2 := ih s' r h
        simp [h2]
        omega

/-- dropWhile never lengthens a list. -/
theorem length_dropWhileC_le (p : Char → Bool) :
    ∀ l : List Char, (l.dropWhile p).length ≤ l.length := by
  intro l
  induction l with
  | nil => simp
  | cons a l' ih =>
    by_cases h : p a = true
    · simp only [List.dropWhile_cons, h, if_true]
      exact Nat.le_succ_of_le ih
    · simp only [List.dropWhile_cons, h, if_false]
      simp

/-- A placeholder match consumes at least one character. -/
theorem matchPlaceholderAt_some_lt (s r : List Char) (h : matchPlaceholderAt s = some r) :
    r.length < s.length := by
  unfold matchPlaceholderAt at h
  cases hm : matchOptPat patChars s with
  | none => rw [hm] at h; simp at h
  | some rest =>
    rw [hm] at h
    dsimp only at h
    have hlen := matchOptPat_length patChars s rest hm
    cases rest with
    | nil => simp at h
    | cons c rest' =>
      dsimp only at h
      cases hc : c.isDigit with
      | false => rw [hc] at h; simp at h
      | true =>
        rw [hc] at h
        simp only [if_true] at h
        have hd : ((c :: rest').dropWhile Char.isDigit).length ≤ (c :: rest').length :=
          length_dropWhileC_le _ _
        injection h with h
        subst h
        simp only [patChars, List.length_cons, List.length_nil] at hlen
        simp only [List.length_cons] at hd ⊢
        omega

/-- Unfolding of the scanner at a matching position. -/
theorem fixScan_cons_match (host : List Char) (f : Nat) (c : Char) (rest rest2 : List Char)
    (h : matchPlaceholderAt (c :: rest) = some rest2) :
    fixScan host (f + 1) (c :: rest) = (strL ("PROXY ") ++ host) ++ fixScan host f rest2 := by
  simp [fixScan, h]

/-- Unfolding of the scanner at a non-matching position. -/
theorem fixScan_cons_nomatch (host : List Char) (f : Nat) (c : Char) (rest : List Char)
    (h : matchPlaceholderAt (c :: rest) = none) :
    fixScan host (f + 1) (c :: rest) = c :: fixScan host f rest := by
  simp [fixScan, h]

/-- The scanner is independent of the fuel once the fuel covers the input
length. -/
theorem fixScan_fuel (host : List Char) :
    ∀ (n fuel1 fuel2 : Nat) (s : List Char), s.length ≤ n →
    s.length ≤ fuel1 → s.length ≤ fuel2 →
    fixScan host fuel1 s = fixScan host fuel2 s := by
  intro n
  induction n with
  | zero =>
    intro fuel1 fuel2 s hn _ _
    have hs : s = [] := List.length_eq_zero.mp (Nat.le_zero.mp hn)
    subst hs
    cases fuel1 <;> cases fuel2 <;> rfl
  | succ n ih =>
    intro fuel1 fuel2 s hn h1 h2
    cases s with
    | nil => cases fuel1 <;> cases fuel2 <;> rfl
    | cons c rest =>
      cases fuel1 with
      | zero => simp at h1
      | succ f1 =>
        cases fuel2 with
        | zero => simp at h2
        | succ f2 =>
          simp only [List.length_cons] at hn h1 h2
          cases hm : matchPlaceholderAt (c :: rest) with
          | some rest2 =>
            have hlt := matchPlaceholderAt_some_lt _ _ hm
            simp only [List.length_cons] at hlt
            rw [fixScan_cons_match host f1 c rest rest2 hm,
              fixScan_cons_match host f2 c rest rest2 hm,
              ih f1 f2 rest2 (by omega) (by omega) (by omega)]
          | none =>
            rw [fixScan_cons_nomatch host f1 c rest hm,
              fixScan_cons_nomatch host f2 c rest hm,
              ih f1 f2 rest (by omega) (by omega) (by omega)]

/-- dropWhile passes over a block whose characters all satisfy the
predicate. -/
theorem dropWhile_all_app (p : Char → Bool) :
    ∀ (l m : List Char), (∀ c ∈ l, p c = true) → (l ++ m).dropWhile p = m.dropWhile p := by
  intro l
  induction l with
  | nil => simp
  | cons a l' ih =>
    intro m hall
    have ha : p a = true := hall a (by simp)
    simp [List.dropWhile_cons, ha, ih m (fun c hc => hall c (by simp [hc]))]

/-- The pattern prefix matches the literal placeholder text. -/
theorem matchOptPat_patChars (t : List Char) :
    matchOptPat patChars (strL ("PROXY 127.0.1.2:") ++ t) = some t := rfl

/-- The full regular expression matches a literal placeholder with a
non-empty port, consuming exactly through its digits when the following
text does not begin with a digit. -/
theorem matchPlaceholderAt_placeholder (ds b : List Char) (hds : ds ≠ [])
    (hdig : ds.all Char.isDigit = true) (hb : ∀ c t, b = c :: t → c.isDigit = false) :
    matchPlaceholderAt ((strL ("PROXY 127.0.1.2:") ++ ds) ++ b) = some b := by
  rw [List.append_assoc]
  unfold matchPlaceholderAt
  rw [matchOptPat_patChars]
  cases ds with
  | nil => exact absurd rfl hds
  | cons d ds' =>
    rw [List.all_eq_true] at hdig
    have hd : d.isDigit = true := hdig d (by simp)
    show (if d.isDigit then some (((d :: ds') ++ b).dropWhile Char.isDigit) else none) = some b
    rw [hd]
    simp only [if_true]
    have h1 : ((d :: ds') ++ b).dropWhile Char.isDigit = b.dropWhile Char.isDigit :=
      dropWhile_all_app Char.isDigit (d :: ds') b hdig
    rw [h1]
    cases b with
    | nil => rfl
    | cons c t =>
      have hc := hb c t rfl
      simp [List.dropWhile_cons, hc]

/-- Every leftmost occurrence of the placeholder is replaced by
`PROXY <host>` and scanning resumes after it: the scanner on
`a ++ PROXY 127.0.1.2:<digits> ++ b`, where no match starts inside `a`,
produces `a ++ PROXY <host> ++` the scan of `b`. -/
theorem fixScan_rewrite (host : List Char) :
    ∀ (a : List Char) (fuel : Nat) (ds b : List Char),
    (a ++ (strL ("PROXY 127.0.1.2:") ++ ds) ++ b).length ≤ fuel →
    ds ≠ [] → ds.all Char.isDigit = true →
    (∀ c t, b = c :: t → c.isDigit = false) →
    (∀ i, i < a.length →
      matchPlaceholderAt ((a ++ (strL ("PROXY 127.0.1.2:") ++ ds) ++ b).drop i) = none) →
    fixScan host fuel (a ++ (strL ("PROXY 127.0.1.2:") ++ ds) ++ b) =
      a ++ (strL ("PROXY ") ++ host) ++ fixProxyPac b host := by
  intro a
  induction a with
  | nil =>
    intro fuel ds b hfuel hds hdig hb _
    rw [List.nil_append] at hfuel ⊢
    have hm := matchPlaceholderAt_placeholder ds b hds hdig hb
    have hp16 : (strL ("PROXY 127.0.1.2:")).length = 16 := rfl
    have hlen : ((strL ("PROXY 127.0.1.2:") ++ ds) ++ b).length = 16 + ds.length + b.length := by
      simp [List.length_append, hp16]
      omega
    cases fuel with
    | zero => rw [hlen] at hfuel; omega
    | succ f =>
      have hbf : b.length ≤ f := by rw [hlen] at hfuel; omega
      have hshape : (strL ("PROXY 127.0.1.2:") ++ ds) ++ b =
          'P' :: ((strL ("ROXY 127.0.1.2:") ++ ds) ++ b) := rfl
      rw [hshape] at hm ⊢
      rw [fixScan_cons_match host f _ _ _ hm]
      have hfb : fixScan host f b = fixProxyPac b host := by
        unfold fixProxyPac
        exact fixScan_fuel host b.length f b.length b (le_refl _) hbf (le_refl _)
      rw [hfb]
      simp
  | cons x a' ih =>
    intro fuel ds b hfuel hds hdig hb hnm
    have h0 := hnm 0 (by simp)
    rw [List.drop_zero] at h0
    have hshape : ((x :: a') ++ (strL ("PROXY 127.0.1.2:") ++ ds)) ++ b =
        x :: ((a' ++ (strL ("PROXY 127.0.1.2:") ++ ds)) ++ b) := rfl
    rw [hshape] at h0 hfuel ⊢
    cases fuel with
    | zero => simp at hfuel
    | succ f =>
      rw [fixScan_cons_nomatch host f _ _ h0]
      have hfuel2 : ((a' ++ (strL ("PROXY 127.0.1.2:") ++ ds)) ++ b).length ≤ f := by
        simp only [List.length_cons] at hfuel
        omega
      have hnm2 : ∀ i, i < a'.length →
          matchPlaceholderAt (((a' ++ (strL ("PROXY 127.0.1.2:") ++ ds)) ++ b).drop i) = none := by
        intro i hi
        have h1 := hnm (i + 1) (by simp only [List.length_cons]; omega)
        rw [hshape] at h1
        rw [List.drop_succ_cons] at h1
        exact h1
      rw [ih f ds b hfuel2 hds hdig hb hnm2]
      simp

/-- C8: every response the PAC handler produces has status 200, is marked
connection close, carries a ContentLength equal to the byte length of its
body, and its body is the placeholder-rewritten cached or freshly rendered
script text. -/
theorem ProxyPacRoundTrip_response (env : PacEnv) (req : PacReq)
    (sc : Nat) (cl : Bool) (ln : Nat) (bd : List Char)
    (h : (ProxyPacRoundTrip env req).outcome = PacOutcome.respOut sc cl ln bd) :
    sc = 200 ∧ cl = true ∧ ln = bd.length ∧
    ((∃ s, env.cacheVal = some s ∧ bd = fixProxyPac s req.host) ∨
     (env.cacheVal = none ∧ bd = fixProxyPac (renderedPac env) req.host)) := by
  unfold ProxyPacRoundTrip at h
  cases hcv : env.cacheVal with
  | some s =>
    rw [hcv] at h
    dsimp only at h
    rw [PacOutcome.respOut.injEq] at h
    obtain ⟨h1, h2, h3, h4⟩ := h
    subst h1; subst h2; subst h4
    exact ⟨rfl, rfl, h3.symm, Or.inl ⟨s, rfl, rfl⟩⟩
  | none =>
    rw [hcv] at h
    dsimp only at h
    cases hc : proxyPacCond env with
    | none => rw [hc] at h; simp at h
    | some cond =>
      rw [hc] at h
      dsimp only at h
      cases hb1 : (cond && env.get1Resp.isNone) with
      | true => rw [hb1] at h; simp at h
      | false =>
        rw [hb1] at h
        simp only [Bool.false_eq_true, if_false] at h
        cases hge : env.get1Err with
        | some e => rw [hge] at h; simp at h
        | none =>
          rw [hge] at h
          dsimp only at h
          cases hsp : pacSecondGetPanics env with
          | true => rw [hsp] at h; simp at h
          | false =>
            rw [hsp] at h
            simp only [Bool.false_eq_true, if_false] at h
            rw [PacOutcome.respOut.injEq] at h
            obtain ⟨h1, h2, h3, h4⟩ := h
            subst h1; subst h2; subst h4
            exact ⟨rfl, rfl, h3.symm, Or.inr ⟨rfl, rfl⟩⟩

/-- On a cache miss that produces a response, the body is the rewritten
fresh render and the un-rewritten render is stored in the cache with the
fixed TTL. -/
theorem ProxyPacRoundTrip_miss_resp (env : PacEnv) (req : PacReq)
    (sc : Nat) (cl : Bool) (ln : Nat) (bd : List Char)
    (hcv : env.cacheVal = none)
    (h : (ProxyPacRoundTrip env req).outcome = PacOutcome.respOut sc cl ln bd) :
    bd = fixProxyPac (renderedPac env) req.host ∧
    (ProxyPacRoundTrip env req).cacheSet =
      some (req.path, renderedPac env, env.now + pacCacheTTL) := by
  unfold ProxyPacRoundTrip at h
  rw [hcv] at h
  dsimp only at h
  cases hc : proxyPacCond env with
  | none => rw [hc] at h; simp at h
  | some cond =>
    rw [hc] at h
    dsimp only at h
    cases hb1 : (cond && env.get1Resp.isNone) with
    | true => rw [hb1] at h; simp at h
    | false =>
      rw [hb1] at h
      simp only [Bool.false_eq_true, if_false] at h
      cases hge : env.get1Err with
      | some e => rw [hge] at h; simp at h
      | none =>
        rw [hge] at h
        dsimp only at h
        cases hsp : pacSecondGetPanics env with
        | true => rw [hsp] at h; simp at h
        | false =>
          rw [hsp] at h
          simp only [Bool.false_eq_true, if_false] at h
          rw [PacOutcome.respOut.injEq] at h
          obtain ⟨_, _, _, h4⟩ := h
          constructor
          · exact h4.symm
          · unfold ProxyPacRoundTrip
            rw [hcv]
            dsimp only
            rw [hc]
            dsimp only
            rw [hb1]
            simp only [Bool.false_eq_true, if_false]
            rw [hge]
            dsimp only
            rw [hsp]
            simp only [Bool.false_eq_true, if_false]

/-- C6: every response body is fixProxyPac of its source text (the cached
body on a hit, the fresh render on a miss, which is cached un-rewritten
with the fixed 15 minute expiry), and fixProxyPac rewrites every leftmost
occurrence of `PROXY 127.0.1.2:<port>` to `PROXY <request host>`,
resuming after the replaced text. -/
theorem fixProxyPac_rewrite_and_cache :
    (∀ (env : PacEnv) (req : PacReq) (sc : Nat) (cl : Bool) (ln : Nat) (bd : List Char),
      (ProxyPacRoundTrip env req).outcome = PacOutcome.respOut sc cl ln bd →
      ((∃ s, env.cacheVal = some s ∧ bd = fixProxyPac s req.host ∧
          (ProxyPacRoundTrip env req).cacheSet = none) ∨
       (env.cacheVal = none ∧ bd = fixProxyPac (renderedPac env) req.host ∧
          (ProxyPacRoundTrip env req).cacheSet =
            some (req.path, renderedPac env, env.now + pacCacheTTL)))) ∧
    (∀ (host a ds b : List Char), ds ≠ [] → ds.all Char.isDigit = true →
      (∀ c t, b = c :: t → c.isDigit = false) →
      (∀ i, i < a.length →
        matchPlaceholderAt ((a ++ (strL ("PROXY 127.0.1.2:") ++ ds) ++ b).drop i) = none) →
      fixProxyPac (a ++ (strL ("PROXY 127.0.1.2:") ++ ds) ++ b) host =
        a ++ (strL ("PROXY ") ++ host) ++ fixProxyPac b host) := by
  constructor
  · intro env req sc cl ln bd h
    cases hcv : env.cacheVal with
    | some s =>
      have he : ProxyPacRoundTrip env req =
          { outcome := PacOutcome.respOut 200 true
              (fixProxyPac s req.host).length (fixProxyPac s req.host),
            cacheSet := none, storePutDefault := none } := by
        unfold ProxyPacRoundTrip
        rw [hcv]
      rw [he] at h
      dsimp only at h
      rw [PacOutcome.respOut.injEq] at h
      obtain ⟨_, _, _, h4⟩ := h
      exact Or.inl ⟨s, rfl, h4.symm, by rw [he]⟩
    | none =>
      have h2 := ProxyPacRoundTrip_miss_resp env req sc cl ln bd hcv h
      exact Or.inr ⟨rfl, h2.1, h2.2⟩
  · intro host a ds b hds hdig hb hnm
    exact fixScan_rewrite host a _ ds b (le_refl _) hds hdig hb hnm

/-- C10: on a cache miss, a first store read that fails with an error
other than not-exist while returning a nil response reaches the
StatusCode dereference before the general error check, so the handler
faults instead of returning that error. -/
theorem ProxyPacRoundTrip_nil_deref (env : PacEnv) (req : PacReq)
    (hmiss : env.cacheVal = none)
    (herr : env.get1Err = some GoErr.other)
    (hnil : env.get1Resp = none) :
    (ProxyPacRoundTrip env req).outcome = PacOutcome.panic := by
  have hc : proxyPacCond env = none := by
    unfold proxyPacCond
    rw [herr]
    dsimp only
    rw [hnil]
  unfold ProxyPacRoundTrip
  rw [hmiss]
  dsimp only
  rw [hc]

/-- C9: a cycle whose Head succeeds with a parseable Last-Modified whose
age is below the staleness threshold is skipped: no download, no store
write, no snapshot replacement and no cache clear happen. -/
theorem pacUpdater_staleness_skip (env : UpdEnv) (lm : List Char) (t : Int)
    (h1 : env.headErr = false) (h2 : env.lastModified = some lm)
    (h3 : env.lmParsed = some t) (h4 : env.now - t < env.expiry) :
    pacUpdaterCycle env = (UOutcome.skip, [UEvent.head]) ∧
    UEvent.download ∉ (pacUpdaterCycle env).2 ∧
    (∀ d, UEvent.storePut d ∉ (pacUpdaterCycle env).2) ∧
    (∀ ds, UEvent.setDomains ds ∉ (pacUpdaterCycle env).2) ∧
    UEvent.cacheClear ∉ (pacUpdaterCycle env).2 := by
  have he : pacUpdaterCycle env = (UOutcome.skip, [UEvent.head]) := by
    unfold pacUpdaterCycle
    rw [h1]
    simp only [Bool.false_eq_true, if_false]
    rw [h2]
    dsimp only
    rw [h3]
    dsimp only
    rw [if_pos h4]
  refine ⟨he, ?_, ?_, ?_, ?_⟩ <;> rw [he] <;> simp

/-- C7: every cycle that publishes does so in source order: the raw bytes
are stored (delete then put), then the snapshot write lock is taken, the
domain list replaced and the lock released, and only then is the PAC
cache cleared. -/
theorem pacUpdater_publish_order (env : UpdEnv)
    (h : (pacUpdaterCycle env).1 = UOutcome.updated) :
    ∃ ds, (pacUpdaterCycle env).2 =
      [UEvent.head, UEvent.download, UEvent.storeDelete, UEvent.storePut env.downloadBody,
       UEvent.lockW, UEvent.setDomains ds, UEvent.unlockW, UEvent.cacheClear] := by
  unfold pacUpdaterCycle at h
  cases hh : env.headErr with
  | true => rw [hh] at h; simp at h
  | false =>
    rw [hh] at h
    simp only [Bool.false_eq_true, if_false] at h
    cases hlm : env.lastModified with
    | none => rw [hlm] at h; simp at h
    | some lm =>
      rw [hlm] at h
      dsimp only at h
      cases hpt : env.lmParsed with
      | none => rw [hpt] at h; simp at h
      | some t =>
        rw [hpt] at h
        dsimp only at h
        by_cases hst : env.now - t < env.expiry
        · rw [if_pos hst] at h; simp at h
        · rw [if_neg hst] at h
          cases hnr : env.newReqErr with
          | true => rw [hnr] at h; simp at h
          | false =>
            rw [hnr] at h
            simp only [Bool.false_eq_true, if_false] at h
            cases htr : env.transportErr with
            | true => rw [htr] at h; simp at h
            | false =>
              rw [htr] at h
              simp only [Bool.false_eq_true, if_false] at h
              cases hre : env.readErr with
              | true => rw [hre] at h; simp at h
              | false =>
                rw [hre] at h
                simp only [Bool.false_eq_true, if_false] at h
                cases hde : env.deleteErr with
                | true => rw [hde] at h; simp at h
                | false =>
                  rw [hde] at h
                  simp only [Bool.false_eq_true, if_false] at h
                  cases hpe : env.putErr with
                  | true => rw [hpe] at h; simp at h
                  | false =>
                    rw [hpe] at h
                    simp only [Bool.false_eq_true, if_false] at h
                    cases hpar : legallyParseGFWList env.reparseBytes with
                    | none => rw [hpar] at h; simp at h
                    | some ds =>
                      refine ⟨ds, ?_⟩
                      unfold pacUpdaterCycle
                      rw [hh]
                      simp only [Bool.false_eq_true, if_false]
                      rw [hlm]
                      dsimp only
                      rw [hpt]
                      dsimp only
                      rw [if_neg hst]
                      rw [hnr]
                      simp only [Bool.false_eq_true, if_false]
                      rw [htr]
                      simp only [Bool.false_eq_true, if_false]
                      rw [hre]
                      simp only [Bool.false_eq_true, if_false]
                      rw [hde]
                      simp only [Bool.false_eq_true, if_false]
                      rw [hpe]
                      simp only [Bool.false_eq_true, if_false]
                      rw [hpar]

/-- A cycle in which everything succeeds until legallyParseGFWList fails
(its store read errs). -/
def updEnvC2 : UpdEnv :=
  { headErr := false, lastModified := some (strL ("Mon, 01 Jan 2024 00:00:00 GMT")),
    lmParsed := some 0, now := 100, expiry := 50, newReqErr := false,
    transportErr := false, downloadBody := strL ("||x.com"), readErr := false,
    deleteErr := false, putErr := false, reparseBytes := none }

/-- C2: when the parse step of a refresh cycle fails, the updater calls
glog.Fatalf and the process terminates while holding the write lock; the
cycle is not the logged no-op the claim describes. -/
theorem pacUpdater_parse_failure_fatal :
    pacUpdaterCycle updEnvC2 =
      (UOutcome.fatal, [UEvent.head, UEvent.download, UEvent.storeDelete,
        UEvent.storePut (strL ("||x.com")), UEvent.lockW, UEvent.fatal]) ∧
    UOutcome.fatal ≠ UOutcome.skip := by
  refine ⟨by decide, by decide⟩

/-- Concrete request for the C8 witness. -/
def pacReqC8 : PacReq := { host := strL ("h.example:8080"), path := strL ("/proxy.pac") }

/-- Concrete cache-hit environment for the C8 witness. -/
def pacEnvC8 : PacEnv :=
  { cacheVal := some (strL ("abc")), get1Resp := none, get1Err := none,
    get2Resp := none, get2Err := none, get2ReadErr := false,
    gfwEnabled := false, domains := [], now := 0 }

/-- Witness for C8 at a concrete cache-hit environment. -/
theorem ProxyPacRoundTrip_response_witness :
    (ProxyPacRoundTrip pacEnvC8 pacReqC8).outcome =
      PacOutcome.respOut 200 true 3 (strL ("abc")) ∧
    (200 = 200 ∧ true = true ∧ 3 = (strL ("abc")).length ∧
      ((∃ s, pacEnvC8.cacheVal = some s ∧ strL ("abc") = fixProxyPac s pacReqC8.host) ∨
       (pacEnvC8.cacheVal = none ∧
        strL ("abc") = fixProxyPac (renderedPac pacEnvC8) pacReqC8.host))) :=
  ⟨by decide, ProxyPacRoundTrip_response pacEnvC8 pacReqC8 200 true 3 (strL ("abc")) (by decide)⟩

/-- Concrete request for the C6 witness. -/
def pacReqC6 : PacReq := { host := strL ("HOSTX"), path := strL ("/gfw.pac") }

/-- Concrete cache-hit environment, with a placeholder in the cached
body, for the C6 witness. -/
def pacEnvC6 : PacEnv :=
  { cacheVal := some (strL ("x PROXY 127.0.1.2:8087 y")), get1Resp := none, get1Err := none,
    get2Resp := none, get2Err := none, get2ReadErr := false,
    gfwEnabled := false, domains := [], now := 0 }

/-- Witness for C6: the cached placeholder is rewritten to the request
host, and the decomposition equation holds at a concrete split. -/
theorem fixProxyPac_rewrite_and_cache_witness :
    ((∃ s, pacEnvC6.cacheVal = some s ∧
        strL ("x PROXY HOSTX y") = fixProxyPac s pacReqC6.host ∧
        (ProxyPacRoundTrip pacEnvC6 pacReqC6).cacheSet = none) ∨
     (pacEnvC6.cacheVal = none ∧
        strL ("x PROXY HOSTX y") = fixProxyPac (renderedPac pacEnvC6) pacReqC6.host ∧
        (ProxyPacRoundTrip pacEnvC6 pacReqC6).cacheSet =
          some (pacReqC6.path, renderedPac pacEnvC6, pacEnvC6.now + pacCacheTTL))) ∧
    fixProxyPac (strL ("x ") ++ (strL ("PROXY 127.0.1.2:") ++ strL ("8087")) ++ strL (" y"))
        (strL ("HOSTX")) =
      strL ("x ") ++ (strL ("PROXY ") ++ strL ("HOSTX")) ++
        fixProxyPac (strL (" y")) (strL ("HOSTX")) :=
  ⟨fixProxyPac_rewrite_and_cache.1 pacEnvC6 pacReqC6 200 true 15
      (strL ("x PROXY HOSTX y")) (by decide),
   fixProxyPac_rewrite_and_cache.2 (strL ("HOSTX")) (strL ("x ")) (strL ("8087")) (strL (" y"))
     (by decide) (by decide)
     (fun c t h => by
        have h2 : (' ' :: ['y'] : List Char) = c :: t := h
        injection h2 with hc ht
        subst hc
        decide)
     (by decide)⟩

/-- Concrete request for the C10 witness. -/
def pacReqC10 : PacReq := { host := strL ("h:80"), path := strL ("/p.pac") }

/-- Concrete environment whose first store read fails with a non
not-exist error and a nil response, for the C10 witness. -/
def pacEnvC10 : PacEnv :=
  { cacheVal := none, get1Resp := none, get1Err := some GoErr.other,
    get2Resp := none, get2Err := none, get2ReadErr := false,
    gfwEnabled := false, domains := [], now := 0 }

/-- Witness for C10 at that concrete environment. -/
theorem ProxyPacRoundTrip_nil_deref_witness :
    pacEnvC10.cacheVal = none ∧ pacEnvC10.get1Err = some GoErr.other ∧
    pacEnvC10.get1Resp = none ∧
    (ProxyPacRoundTrip pacEnvC10 pacReqC10).outcome = PacOutcome.panic :=
  ⟨rfl, rfl, rfl, ProxyPacRoundTrip_nil_deref pacEnvC10 pacReqC10 rfl rfl rfl⟩

/-- Concrete fully successful cycle environment for the C7 witness. -/
def updEnvC7 : UpdEnv :=
  { headErr := false, lastModified := some (strL ("Mon, 01 Jan 2024 00:00:00 GMT")),
    lmParsed := some 0, now := 100, expiry := 50, newReqErr := false,
    transportErr := false, downloadBody := strL ("a.com\n"), readErr := false,
    deleteErr := false, putErr := false, reparseBytes := some (strL ("a.com\n")) }

/-- Witness for C7 at a concrete successful cycle. -/
theorem pacUpdater_publish_order_witness :
    (pacUpdaterCycle updEnvC7).1 = UOutcome.updated ∧
    ∃ ds, (pacUpdaterCycle updEnvC7).2 =
      [UEvent.head, UEvent.download, UEvent.storeDelete,
       UEvent.storePut updEnvC7.downloadBody, UEvent.lockW, UEvent.setDomains ds,
       UEvent.unlockW, UEvent.cacheClear] :=
  ⟨by decide, pacUpdater_publish_order updEnvC7 (by decide)⟩

/-- Concrete fresh-list cycle environment for the C9 witness. -/
def updEnvC9 : UpdEnv :=
  { headErr := false, lastModified := some (strL ("Mon, 01 Jan 2024 00:00:00 GMT")),
    lmParsed := some 90, now := 100, expiry := 50, newReqErr := false,
    transportErr := false, downloadBody := [], readErr := false,
    deleteErr := false, putErr := false, reparseBytes := none }

/-- Witness for C9 at a concrete fresh local copy. -/
theorem pacUpdater_staleness_skip_witness :
    updEnvC9.headErr = false ∧
    updEnvC9.lastModified = some (strL ("Mon, 01 Jan 2024 00:00:00 GMT")) ∧
    updEnvC9.lmParsed = some 90 ∧ updEnvC9.now - 90 < updEnvC9.expiry ∧
    (pacUpdaterCycle updEnvC9 = (UOutcome.skip, [UEvent.head]) ∧
     UEvent.download ∉ (pacUpdaterCycle updEnvC9).2 ∧
     (∀ d, UEvent.storePut d ∉ (pacUpdaterCycle updEnvC9).2) ∧
     (∀ ds, UEvent.setDomains ds ∉ (pacUpdaterCycle updEnvC9).2) ∧
     UEvent.cacheClear ∉ (pacUpdaterCycle updEnvC9).2) :=
  ⟨rfl, rfl, rfl, by decide,
   pacUpdater_staleness_skip updEnvC9 (strL ("Mon, 01 Jan 2024 00:00:00 GMT")) 90
     rfl rfl rfl (by decide)⟩
